import Mathlib

/-!
# Exercise Tracker — verification of the request-handling core

Shallow embedding of `src/index.js`: the data model (User, Exercise), the
input-normalization helpers (duration parsing, date parsing with default,
date formatting), the logs query construction, and the three writing/reading
handlers (`POST /api/users`, `POST /api/users/:_id/exercises`,
`GET /api/users/:_id/logs`).

Dates are modelled at calendar-date granularity as days since the Unix epoch
(an `Int`), matching the spec's note that output always truncates to calendar
dates.  The runtime's date parser (JavaScript `new Date(...)`) is external to
the repository; it is modelled here on ISO `YYYY-MM-DD` calendar-date strings,
the format class the code and spec exercise, with every other string treated
as unparseable.
-/

namespace ExerciseTracker

/-! ## Calendar arithmetic (civil-from-days and days-from-civil) -/

/-- Is `y` a leap year (proleptic Gregorian)? -/
def isLeap (y : Int) : Bool :=
  y % 4 == 0 && (y % 100 != 0 || y % 400 == 0)

/-- Number of days in month `m` (1–12) of year `y`. -/
def daysInMonth (y : Int) (m : Nat) : Nat :=
  match m with
  | 1 => 31 | 2 => if isLeap y then 29 else 28 | 3 => 31 | 4 => 30
  | 5 => 31 | 6 => 30 | 7 => 31 | 8 => 31
  | 9 => 30 | 10 => 31 | 11 => 30 | _ => 31

/-- Days since 1970-01-01 of the civil date `(y, m, d)`. -/
def daysFromCivil (y : Int) (m d : Nat) : Int :=
  let y2 : Int := if m ≤ 2 then y - 1 else y
  let era : Int := Int.fdiv y2 400
  let yoe : Nat := (y2 - era * 400).toNat
  let mp : Nat := if 2 < m then m - 3 else m + 9
  let doy : Nat := (153 * mp + 2) / 5 + d - 1
  let doe : Nat := yoe * 365 + yoe / 4 - yoe / 100 + doy
  era * 146097 + (doe : Int) - 719468

/-- Civil date `(year, month, day)` of the day `z` days after 1970-01-01. -/
def civilFromDays (z : Int) : Int × Nat × Nat :=
  let z2 : Int := z + 719468
  let era : Int := Int.fdiv z2 146097
  let doe : Nat := (Int.fmod z2 146097).toNat
  let yoe : Nat := (doe - doe / 1460 + doe / 36524 - doe / 146096) / 365
  let y : Int := (yoe : Int) + era * 400
  let doy : Nat := doe - (365 * yoe + yoe / 4 - yoe / 100)
  let mp : Nat := (5 * doy + 2) / 153
  let d : Nat := doy - (153 * mp + 2) / 5 + 1
  let m : Nat := if mp < 10 then mp + 3 else mp - 9
  (if m ≤ 2 then y + 1 else y, m, d)

/-- Weekday index of day `z` (0 = Sunday); 1970-01-01 was a Thursday. -/
def dayOfWeek (z : Int) : Nat := ((z + 4).emod 7).toNat

def weekdayAbbrev : Nat → String
  | 0 => "Sun" | 1 => "Mon" | 2 => "Tue" | 3 => "Wed"
  | 4 => "Thu" | 5 => "Fri" | _ => "Sat"

def monthAbbrev : Nat → String
  | 1 => "Jan" | 2 => "Feb" | 3 => "Mar" | 4 => "Apr"
  | 5 => "May" | 6 => "Jun" | 7 => "Jul" | 8 => "Aug"
  | 9 => "Sep" | 10 => "Oct" | 11 => "Nov" | _ => "Dec"

/-- Two-digit zero-padded day-of-month, as `Date.prototype.toDateString` prints it. -/
def pad2 (n : Nat) : String := if n < 10 then "0" ++ toString n else toString n

/-- Model of JavaScript `Date.prototype.toDateString`:
`"<Weekday> <Month> <Day> <Year>"`, e.g. `"Sun Jan 15 2023"`. -/
def toDateString (z : Int) : String :=
  let c := civilFromDays z
  weekdayAbbrev (dayOfWeek z) ++ " " ++ monthAbbrev c.2.1 ++ " " ++
    pad2 c.2.2 ++ " " ++ toString c.1

/-! ## Input parsing (models of the JS runtime facilities the code calls) -/

/-- Decimal value of a digit character, `none` for a non-digit. -/
def digit? (c : Char) : Option Nat :=
  if c.isDigit then some (c.toNat - 48) else none

/-- Model of the runtime date parser `new Date(s)` restricted to ISO
`YYYY-MM-DD` calendar-date strings (the class of inputs the code and spec
exercise); any other string is treated as an invalid date (`none`).
Returns days since the epoch. -/
def jsParseDate (s : String) : Option Int :=
  match s.toList with
  | [y1, y2, y3, y4, s1, m1, m2, s2, d1, d2] =>
    if s1 = '-' ∧ s2 = '-' then do
      let a ← digit? y1
      let b ← digit? y2
      let c ← digit? y3
      let d ← digit? y4
      let e ← digit? m1
      let f ← digit? m2
      let g ← digit? d1
      let h ← digit? d2
      let y : Int := (a * 1000 + b * 100 + c * 10 + d : Nat)
      let mo : Nat := e * 10 + f
      let da : Nat := g * 10 + h
      if 1 ≤ mo ∧ mo ≤ 12 ∧ 1 ≤ da ∧ da ≤ daysInMonth y mo then
        some (daysFromCivil y mo da)
      else none
    else none
  | _ => none

def digitsToNat (ds : List Char) : Nat :=
  ds.foldl (fun acc c => acc * 10 + (c.toNat - 48)) 0

/-- Model of JavaScript `parseInt(raw, 10)` on an optional string input:
skip leading whitespace, read an optional sign, then the maximal run of
leading decimal digits; `none` (NaN) when no digit is found
(in particular on a missing input, `parseInt(undefined, 10)`). -/
def jsParseInt (raw : Option String) : Option Int :=
  match raw with
  | none => none
  | some s =>
    let cs := s.toList.dropWhile Char.isWhitespace
    let signed : Int × List Char :=
      match cs with
      | '-' :: rest => (-1, rest)
      | '+' :: rest => (1, rest)
      | _ => (1, cs)
    let ds := signed.2.takeWhile Char.isDigit
    if ds.isEmpty then none else some (signed.1 * (digitsToNat ds : Int))

/-- JS truthiness of an optional string: `undefined` and `""` are falsy. -/
def truthy (raw : Option String) : Bool :=
  match raw with
  | none => false
  | some s => !(s == "")

/-- Model of `String.prototype.trim` (also applied by the schema's
`trim: true`): remove leading and trailing whitespace. -/
def strTrim (s : String) : String :=
  ⟨((s.toList.dropWhile Char.isWhitespace).reverse.dropWhile
      Char.isWhitespace).reverse⟩

/-- JS falsiness-or-blank test used for `username` and `description`:
`!s || !s.trim()`. -/
def strBlank (raw : Option String) : Bool :=
  match raw with
  | none => true
  | some s => s == "" || strTrim s == ""

/-- `src/index.js` lines 90–91: `let d = new Date(date);
if (!date || isNaN(d.getTime())) d = new Date();` — parse the date,
defaulting to `now` when the field is missing, empty or unparseable. -/
def parseDateOrDefault (raw : Option String) (now : Int) : Int :=
  match raw with
  | none => now
  | some s =>
    if s == "" then now
    else match jsParseDate s with
      | none => now
      | some d => d

/-! ## Data model -/

structure User where
  _id : Nat
  username : String
deriving DecidableEq, Repr

structure Exercise where
  _id : Nat
  userId : Nat
  description : String
  duration : Int
  date : Int
deriving DecidableEq, Repr

inductive ApiError where
  | invalidInput
  | unknownUser
deriving DecidableEq, Repr

structure UserResp where
  username : String
  _id : Nat
deriving DecidableEq, Repr

structure ExerciseResp where
  _id : String
  username : String
  description : String
  duration : Int
  date : String
deriving DecidableEq, Repr

structure LogEntry where
  description : String
  duration : Int
  date : String
deriving DecidableEq, Repr

structure LogsResp where
  username : String
  count : Nat
  _id : String
  log : List LogEntry
deriving DecidableEq, Repr

/-! ## Query construction (logs filter), `src/index.js` lines 126–133 -/

/-- The optional `date` sub-document of the Mongo filter:
`$gte` and/or `$lte` bounds. -/
structure DateFilter where
  gte : Option Int
  lte : Option Int
deriving DecidableEq, Repr

/-- The Mongo filter built by the logs handler: always `userId`,
plus an optional `date` constraint. -/
structure Query where
  userId : Nat
  dateFilter : Option DateFilter
deriving DecidableEq, Repr

/-- `src/index.js` lines 126–133: start from `{ userId }`; when `from` or `to`
is truthy add a `date` sub-document, set `$gte`/`$lte` only for bounds that
parse as valid dates, and delete the sub-document again if it stayed empty. -/
def buildQuery (uid : Nat) (f t : Option String) : Query :=
  if truthy f || truthy t then
    let g : Option Int := if truthy f then jsParseDate (f.getD "") else none
    let l : Option Int := if truthy t then jsParseDate (t.getD "") else none
    if g.isNone && l.isNone then ⟨uid, none⟩
    else ⟨uid, some ⟨g, l⟩⟩
  else ⟨uid, none⟩

/-- Does the stored date `d` satisfy the date sub-document? -/
def matchesFilter (df : DateFilter) (d : Int) : Bool :=
  (match df.gte with | none => true | some lo => decide (lo ≤ d)) &&
  (match df.lte with | none => true | some hi => decide (d ≤ hi))

/-- Does exercise `e` match the Mongo filter `q`? -/
def matchesQuery (q : Query) (e : Exercise) : Bool :=
  e.userId == q.userId &&
    (match q.dateFilter with
     | none => true
     | some df => matchesFilter df e.date)

/-- The store's sort order `sort({ date: 1 })`: ascending by date. -/
def dateLE (a b : Exercise) : Prop := a.date ≤ b.date

instance : DecidableRel dateLE := fun a b => inferInstanceAs (Decidable (a.date ≤ b.date))

instance : IsTotal Exercise dateLE := ⟨fun a b => Int.le_total a.date b.date⟩

instance : IsTrans Exercise dateLE := ⟨fun _ _ _ h h' => Int.le_trans h h'⟩

/-- `Exercise.find(q).sort({ date: 1 })`: the matching records in ascending
date order. -/
def matchedLogs (store : List Exercise) (q : Query) : List Exercise :=
  List.insertionSort dateLE (store.filter (matchesQuery q))

/-- `src/index.js` lines 136–137: `const lim = parseInt(limit, 10);
if (!Number.isNaN(lim) && lim > 0) cursor = cursor.limit(lim);`. -/
def applyLimit (lim : Option String) (l : List Exercise) : List Exercise :=
  match jsParseInt lim with
  | some n => if 0 < n then l.take n.toNat else l
  | none => l

/-- Projection of a stored exercise to a log entry, `src/index.js`
lines 141–145. -/
def renderEntry (e : Exercise) : LogEntry :=
  ⟨e.description, e.duration, toDateString e.date⟩

/-! ## Handlers -/

/-- `POST /api/users` (`src/index.js` lines 50–57).  Returns the response
(or error) together with the user collection after the request. -/
def postUser (users : List User) (nextId : Nat) (username : Option String) :
    Except ApiError UserResp × List User :=
  if strBlank username then (.error .invalidInput, users)
  else
    let u : User := ⟨nextId, strTrim (username.getD "")⟩
    (.ok ⟨u.username, u._id⟩, users ++ [u])

/-- Request body of `POST /api/users/:_id/exercises`. -/
structure ExerciseReq where
  description : Option String
  duration : Option String
  date : Option String
deriving DecidableEq, Repr

/-- `POST /api/users/:_id/exercises` (`src/index.js` lines 76–108).
`nextId` is the id the store would assign to the created record, `now` the
current date.  Returns the response (or error) together with the exercise
collection after the request. -/
def postExercise (users : List User) (store : List Exercise) (nextId : Nat)
    (uid : Nat) (body : ExerciseReq) (now : Int) :
    Except ApiError ExerciseResp × List Exercise :=
  match users.find? (fun u => u._id == uid) with
  | none => (.error .unknownUser, store)
  | some user =>
    let dur := jsParseInt body.duration
    if strBlank body.description || dur.isNone then
      (.error .invalidInput, store)
    else
      let d := parseDateOrDefault body.date now
      let ex : Exercise :=
        ⟨nextId, user._id, strTrim (body.description.getD ""), dur.getD 0, d⟩
      (.ok ⟨toString user._id, user.username, ex.description, ex.duration,
            toDateString ex.date⟩,
       store ++ [ex])

/-- `GET /api/users/:_id/logs` (`src/index.js` lines 117–154).  Read-only:
returns only a response (or error). -/
def getLogs (users : List User) (store : List Exercise) (uid : Nat)
    (f t lim : Option String) : Except ApiError LogsResp :=
  match users.find? (fun u => u._id == uid) with
  | none => .error .unknownUser
  | some user =>
    let q := buildQuery user._id f t
    let exercises := applyLimit lim (matchedLogs store q)
    let log := exercises.map renderEntry
    .ok ⟨user.username, log.length, toString user._id, log⟩

/-! ## Helper lemmas -/

/-- The empty string is not a valid date. -/
theorem jsParseDate_empty : jsParseDate "" = none := rfl

/-- A falsy `from`/`to` parameter yields no bound. -/
theorem bind_jsParseDate_of_not_truthy {f : Option String} (h : truthy f = false) :
    f.bind jsParseDate = none := by
  cases f with
  | none => rfl
  | some s =>
    simp only [truthy, Bool.not_eq_false', beq_iff_eq] at h
    subst h
    rfl

/-- The bound the code computes for one parameter equals `jsParseDate`
mapped over the optional parameter. -/
theorem truthy_bound_eq (f : Option String) :
    (if truthy f then jsParseDate (f.getD "") else none) = f.bind jsParseDate := by
  cases f with
  | none => rfl
  | some s =>
    by_cases hs : s = ""
    · subst hs; rfl
    · simp [truthy, hs]

/-- Normal form of the constructed logs query: the `$gte` bound is the parse
of `from`, the `$lte` bound is the parse of `to`, and the `date` sub-document
is present exactly when at least one bound is valid. -/
theorem buildQuery_eq (uid : Nat) (f t : Option String) :
    buildQuery uid f t =
      if (f.bind jsParseDate).isNone && (t.bind jsParseDate).isNone then ⟨uid, none⟩
      else ⟨uid, some ⟨f.bind jsParseDate, t.bind jsParseDate⟩⟩ := by
  unfold buildQuery
  rw [truthy_bound_eq f, truthy_bound_eq t]
  by_cases hft : truthy f || truthy t
  · simp [hft]
  · simp only [Bool.or_eq_true, not_or, Bool.not_eq_true] at hft
    rw [bind_jsParseDate_of_not_truthy hft.1, bind_jsParseDate_of_not_truthy hft.2]
    simp [hft.1, hft.2]

/-- `parseDateOrDefault` in closed form: the parse of the optional raw field,
defaulted to `now`. -/
theorem parseDateOrDefault_eq (raw : Option String) (now : Int) :
    parseDateOrDefault raw now = (raw.bind jsParseDate).getD now := by
  cases raw with
  | none => rfl
  | some s =>
    by_cases hs : s = ""
    · subst hs; rfl
    · simp only [parseDateOrDefault, Option.bind]
      rw [if_neg (by simpa using hs)]
      cases jsParseDate s <;> rfl

/-- The `$gte` bound of a query, if any. -/
def qGte (q : Query) : Option Int := q.dateFilter.bind DateFilter.gte

/-- The `$lte` bound of a query, if any. -/
def qLte (q : Query) : Option Int := q.dateFilter.bind DateFilter.lte

/-! ## C1 -/

/-- C1: In the logs query construction, the lower bound is present exactly
when `from` is present and parses as a valid date (and is then that date),
the upper bound is present exactly when `to` is present and parses as a valid
date, and the `date` constraint is absent exactly when neither parameter
yields a valid bound; in particular an invalid `from` with a valid `to`
still applies the `to` bound, and an invalid bound never causes an error
(`buildQuery` is total). -/
theorem buildQuery_bounds (uid : Nat) (f t : Option String) :
    (buildQuery uid f t).userId = uid ∧
    qGte (buildQuery uid f t) = f.bind jsParseDate ∧
    qLte (buildQuery uid f t) = t.bind jsParseDate ∧
    ((buildQuery uid f t).dateFilter = none ↔
      f.bind jsParseDate = none ∧ t.bind jsParseDate = none) := by
  rw [buildQuery_eq]
  cases hf : f.bind jsParseDate <;> cases ht : t.bind jsParseDate <;>
    simp [qGte, qLte]

/-! ## C2 -/

/-- A successful lookup pins down the whole logs response. -/
theorem getLogs_ok {users : List User} {uid : Nat} {user : User}
    (store : List Exercise) (f t lim : Option String)
    (hu : users.find? (fun u => u._id == uid) = some user) :
    getLogs users store uid f t lim =
      .ok ⟨user.username,
           ((applyLimit lim (matchedLogs store (buildQuery user._id f t))).map renderEntry).length,
           toString user._id,
           (applyLimit lim (matchedLogs store (buildQuery user._id f t))).map renderEntry⟩ := by
  simp [getLogs, hu]

/-- A successful user lookup by `==` returns a user with the looked-up id. -/
theorem find?_user_id {users : List User} {uid : Nat} {user : User}
    (hu : users.find? (fun u => u._id == uid) = some user) : user._id = uid := by
  have h := List.find?_some hu
  simpa using h

/-- C2: For every user and store, the logs endpoint works on the matching
records sorted by date ascending: the sorted match list is a permutation of
the filtered store; when `limit` parses as a positive integer `n` the
response log is the first `n` records of that ascending order; when `limit`
is absent, non-numeric or non-positive the response log is all matching
records, uncapped. -/
theorem getLogs_sorted_limited (users : List User) (store : List Exercise)
    (uid : Nat) (f t lim : Option String) (resp : LogsResp)
    (h : getLogs users store uid f t lim = .ok resp) :
    List.Perm (matchedLogs store (buildQuery uid f t))
        (store.filter (matchesQuery (buildQuery uid f t))) ∧
    List.Sorted dateLE (matchedLogs store (buildQuery uid f t)) ∧
    (∀ n : Int, jsParseInt lim = some n → 0 < n →
      resp.log =
        ((matchedLogs store (buildQuery uid f t)).take n.toNat).map renderEntry) ∧
    ((∀ n : Int, jsParseInt lim = some n → n ≤ 0) →
      resp.log = (matchedLogs store (buildQuery uid f t)).map renderEntry) := by
  cases hu : users.find? (fun u => u._id == uid) with
  | none => rw [getLogs, hu] at h; exact absurd h (by simp)
  | some user =>
    have hid := find?_user_id hu
    rw [getLogs_ok store f t lim hu] at h
    obtain rfl : resp = _ := (Except.ok.inj h).symm
    subst hid
    refine ⟨List.perm_insertionSort dateLE _, List.sorted_insertionSort dateLE _, ?_, ?_⟩
    · intro n hn hpos
      simp only [applyLimit, hn, if_pos hpos]
    · intro hnp
      cases hn : jsParseInt lim with
      | none => simp only [applyLimit, hn]
      | some n =>
        have : ¬ 0 < n := by simpa using hnp n hn
        simp only [applyLimit, hn, if_neg this]

/-- Witness for C2: a user with three exercises and `limit=2` gets the two
earliest records, in ascending date order. -/
theorem getLogs_sorted_limited_witness :
    List.Perm
      (matchedLogs
        [⟨10, 1, "a", 5, 100⟩, ⟨11, 1, "b", 6, 50⟩, ⟨12, 1, "c", 7, 75⟩]
        (buildQuery 1 none none))
      (List.filter
        (matchesQuery (buildQuery 1 none none))
        [⟨10, 1, "a", 5, 100⟩, ⟨11, 1, "b", 6, 50⟩, ⟨12, 1, "c", 7, 75⟩]) ∧
    List.Sorted dateLE
      (matchedLogs
        [⟨10, 1, "a", 5, 100⟩, ⟨11, 1, "b", 6, 50⟩, ⟨12, 1, "c", 7, 75⟩]
        (buildQuery 1 none none)) ∧
    (∀ n : Int, jsParseInt (some "2") = some n → 0 < n →
      [renderEntry ⟨11, 1, "b", 6, 50⟩, renderEntry ⟨12, 1, "c", 7, 75⟩] =
        ((matchedLogs
            [⟨10, 1, "a", 5, 100⟩, ⟨11, 1, "b", 6, 50⟩, ⟨12, 1, "c", 7, 75⟩]
            (buildQuery 1 none none)).take n.toNat).map renderEntry) ∧
    ((∀ n : Int, jsParseInt (some "2") = some n → n ≤ 0) →
      [renderEntry ⟨11, 1, "b", 6, 50⟩, renderEntry ⟨12, 1, "c", 7, 75⟩] =
        (matchedLogs
          [⟨10, 1, "a", 5, 100⟩, ⟨11, 1, "b", 6, 50⟩, ⟨12, 1, "c", 7, 75⟩]
          (buildQuery 1 none none)).map renderEntry) := by
  exact getLogs_sorted_limited [⟨1, "fcc_test"⟩]
    [⟨10, 1, "a", 5, 100⟩, ⟨11, 1, "b", 6, 50⟩, ⟨12, 1, "c", 7, 75⟩]
    1 none none (some "2")
    ⟨"fcc_test", 2, "1",
      [renderEntry ⟨11, 1, "b", 6, 50⟩, renderEntry ⟨12, 1, "c", 7, 75⟩]⟩ rfl

/-! ## C3 -/

/-- C3: For every successful logs response, `count` equals the length of the
returned `log` array (after any limit is applied). -/
theorem count_matches_log_length (users : List User) (store : List Exercise)
    (uid : Nat) (f t lim : Option String) (resp : LogsResp)
    (h : getLogs users store uid f t lim = .ok resp) :
    resp.count = resp.log.length := by
  cases hu : users.find? (fun u => u._id == uid) with
  | none => rw [getLogs, hu] at h; exact absurd h (by simp)
  | some user =>
    rw [getLogs_ok store f t lim hu] at h
    obtain rfl : resp = _ := (Except.ok.inj h).symm
    rfl

/-- Witness for C3: `limit=1` on a user with 3 exercises returns exactly one
log entry (the earliest) and `count = 1`. -/
theorem count_matches_log_length_witness :
    ∃ resp : LogsResp,
      getLogs [⟨1, "fcc_test"⟩]
        [⟨10, 1, "a", 5, 100⟩, ⟨11, 1, "b", 6, 50⟩, ⟨12, 1, "c", 7, 75⟩]
        1 none none (some "1") = .ok resp ∧
      resp.count = resp.log.length ∧ resp.count = 1 :=
  ⟨⟨"fcc_test", 1, "1", [renderEntry ⟨11, 1, "b", 6, 50⟩]⟩, rfl,
   count_matches_log_length [⟨1, "fcc_test"⟩]
     [⟨10, 1, "a", 5, 100⟩, ⟨11, 1, "b", 6, 50⟩, ⟨12, 1, "c", 7, 75⟩]
     1 none none (some "1") _ rfl, rfl⟩

/-! ## C4 -/

/-- Normal form of a successful exercise creation. -/
theorem postExercise_ok {users : List User} {uid : Nat} {user : User}
    (store : List Exercise) (nextId : Nat) (body : ExerciseReq) (now : Int)
    (hu : users.find? (fun u => u._id == uid) = some user)
    (hd : strBlank body.description = false)
    (hdur : (jsParseInt body.duration).isNone = false) :
    postExercise users store nextId uid body now =
      (.ok ⟨toString user._id, user.username, strTrim (body.description.getD ""),
            (jsParseInt body.duration).getD 0,
            toDateString (parseDateOrDefault body.date now)⟩,
       store ++ [⟨nextId, user._id, strTrim (body.description.getD ""),
                 (jsParseInt body.duration).getD 0,
                 parseDateOrDefault body.date now⟩]) := by
  rw [postExercise, hu]
  simp [hd, hdur]

/-- C4: Every successful exercise creation appends exactly one record with the
freshly assigned id, and the response's `_id` field is the **user's** id, not
the new record's; description, duration and (formatted) date come from the
created record. -/
theorem exercise_response_ids (users : List User) (store : List Exercise)
    (nextId uid : Nat) (body : ExerciseReq) (now : Int) (user : User)
    (resp : ExerciseResp) (store' : List Exercise)
    (hu : users.find? (fun u => u._id == uid) = some user)
    (h : postExercise users store nextId uid body now = (.ok resp, store')) :
    ∃ ex : Exercise,
      store' = store ++ [ex] ∧ ex._id = nextId ∧ ex.userId = user._id ∧
      resp._id = toString user._id ∧
      resp.username = user.username ∧
      resp.description = ex.description ∧
      resp.duration = ex.duration ∧
      resp.date = toDateString ex.date ∧
      (toString user._id ≠ toString nextId → resp._id ≠ toString ex._id) := by
  by_cases hd : strBlank body.description
  · rw [postExercise, hu] at h
    simp [hd] at h
  · cases hdur : jsParseInt body.duration with
    | none =>
      rw [postExercise, hu] at h
      simp [hd, hdur] at h
    | some n =>
      rw [postExercise_ok store nextId body now hu (by simpa using hd)
        (by rw [hdur]; rfl)] at h
      obtain ⟨h1, h2⟩ := Prod.mk.injEq .. ▸ h
      obtain rfl : resp = _ := (Except.ok.inj (by exact h1)).symm
      exact ⟨_, h2.symm, rfl, rfl, rfl, rfl, rfl, rfl, rfl, fun hne => hne⟩

/-- Witness for C4: creating `{description: "test run", duration: 30,
date: "2023-01-15"}` for user 1 (record id 7) answers with the user's id. -/
theorem exercise_response_ids_witness :
    ∃ ex : Exercise,
      ([⟨7, 1, "test run", 30, 19372⟩] : List Exercise) = [] ++ [ex] ∧
      ex._id = 7 ∧ ex.userId = 1 ∧
      ("1" : String) = toString (1 : Nat) ∧
      ("fcc_test" : String) = "fcc_test" ∧
      ("test run" : String) = ex.description ∧
      ((30 : Int) = ex.duration) ∧
      ("Sun Jan 15 2023" : String) = toDateString ex.date ∧
      (toString (1 : Nat) ≠ toString (7 : Nat) → ("1" : String) ≠ toString ex._id) := by
  exact exercise_response_ids [⟨1, "fcc_test"⟩] [] 7 1
    ⟨some "test run", some "30", some "2023-01-15"⟩ 0 ⟨1, "fcc_test"⟩
    ⟨"1", "fcc_test", "test run", 30, "Sun Jan 15 2023"⟩
    [⟨7, 1, "test run", 30, 19372⟩] rfl rfl

/-! ## C5 -/

/-- C5: Creating an exercise for a non-existent user fails with
`unknownUser` whatever the body holds — the user-existence check runs before
any input validation, and the store is untouched. -/
theorem unknown_user_precedes_validation (users : List User)
    (store : List Exercise) (nextId uid : Nat) (body : ExerciseReq) (now : Int)
    (h : users.find? (fun u => u._id == uid) = none) :
    postExercise users store nextId uid body now =
      (.error .unknownUser, store) := by
  rw [postExercise, h]

/-- Witness for C5: an unknown user id together with a blank description and
an unparseable duration still yields `unknownUser`, not `invalidInput`. -/
theorem unknown_user_precedes_validation_witness :
    postExercise [] [] 0 1 ⟨none, some "abc", none⟩ 0 =
      (.error .unknownUser, []) :=
  unknown_user_precedes_validation [] [] 0 1 ⟨none, some "abc", none⟩ 0 rfl

/-! ## C6 -/

/-- C6: The stored (and hence returned) exercise date is the parse of the
`date` field defaulted to `now`: absent or unparseable dates become the
current date, a valid date is stored as parsed; and an unparseable `date`
string is behaviourally equivalent to omitting the field entirely. -/
theorem exercise_date_defaulting (users : List User) (store : List Exercise)
    (nextId uid : Nat) (body : ExerciseReq) (now : Int) :
    (∀ (resp : ExerciseResp) (store' : List Exercise),
      postExercise users store nextId uid body now = (.ok resp, store') →
      ∃ ex : Exercise, store' = store ++ [ex] ∧
        ex.date = (body.date.bind jsParseDate).getD now ∧
        resp.date = toDateString ex.date) ∧
    (body.date.bind jsParseDate = none →
      postExercise users store nextId uid body now =
        postExercise users store nextId uid ⟨body.description, body.duration, none⟩ now) := by
  constructor
  · intro resp store' h
    cases hu : users.find? (fun u => u._id == uid) with
    | none => rw [postExercise, hu] at h; simp at h
    | some user =>
      by_cases hd : strBlank body.description
      · rw [postExercise, hu] at h; simp [hd] at h
      · cases hdur : jsParseInt body.duration with
        | none => rw [postExercise, hu] at h; simp [hd, hdur] at h
        | some n =>
          rw [postExercise_ok store nextId body now hu (by simpa using hd)
            (by rw [hdur]; rfl)] at h
          obtain ⟨h1, h2⟩ := Prod.mk.injEq .. ▸ h
          obtain rfl : resp = _ := (Except.ok.inj (by exact h1)).symm
          exact ⟨_, h2.symm, (parseDateOrDefault_eq body.date now), rfl⟩
  · intro hnone
    have hpd : parseDateOrDefault body.date now = parseDateOrDefault none now := by
      rw [parseDateOrDefault_eq, hnone]; rfl
    rw [postExercise, postExercise]
    cases users.find? (fun u => u._id == uid) with
    | none => rfl
    | some user => simp only [hpd]

/-- Witness for C6: with the unparseable date string `"garbage"` the stored
date is the current date `42`, exactly as when the field is omitted. -/
theorem exercise_date_defaulting_witness :
    (∃ ex : Exercise,
      ([⟨3, 1, "run", 5, 42⟩] : List Exercise) = [] ++ [ex] ∧
      ex.date = (((some "garbage").bind jsParseDate).getD 42) ∧
      toDateString 42 = toDateString ex.date) ∧
    (postExercise [⟨1, "u"⟩] [] 3 1 ⟨some "run", some "5", some "garbage"⟩ 42 =
      postExercise [⟨1, "u"⟩] [] 3 1 ⟨some "run", some "5", none⟩ 42) := by
  have h := exercise_date_defaulting [⟨1, "u"⟩] [] 3 1
    ⟨some "run", some "5", some "garbage"⟩ 42
  exact ⟨h.1 ⟨"1", "u", "run", 5, toDateString 42⟩ [⟨3, 1, "run", 5, 42⟩] rfl,
         h.2 rfl⟩

/-! ## C7 -/

/-- Every weekday abbreviation comes from the fixed seven-element table. -/
theorem weekdayAbbrev_mem (n : Nat) :
    weekdayAbbrev n ∈ ["Sun", "Mon", "Tue", "Wed", "Thu", "Fri", "Sat"] := by
  match n with
  | 0 => decide
  | 1 => decide
  | 2 => decide
  | 3 => decide
  | 4 => decide
  | 5 => decide
  | n + 6 => show "Sat" ∈ _; decide

/-- Every month abbreviation comes from the fixed twelve-element table. -/
theorem monthAbbrev_mem (n : Nat) :
    monthAbbrev n ∈ ["Jan", "Feb", "Mar", "Apr", "May", "Jun",
                     "Jul", "Aug", "Sep", "Oct", "Nov", "Dec"] := by
  match n with
  | 0 => show "Dec" ∈ _; decide
  | 1 => decide
  | 2 => decide
  | 3 => decide
  | 4 => decide
  | 5 => decide
  | 6 => decide
  | 7 => decide
  | 8 => decide
  | 9 => decide
  | 10 => decide
  | 11 => decide
  | n + 12 => show "Dec" ∈ _; decide

/-- C7: Every rendered date is in the fixed canonical form
`"<Weekday> <Month> <Day> <Year>"` with the weekday and month drawn from the
canonical tables; in particular the exercise date `"2023-01-15"` parses to
day 19372 and is rendered `"Sun Jan 15 2023"`. -/
theorem date_format_canonical :
    (∀ z : Int, ∃ w ∈ ["Sun", "Mon", "Tue", "Wed", "Thu", "Fri", "Sat"],
      ∃ mo ∈ ["Jan", "Feb", "Mar", "Apr", "May", "Jun",
              "Jul", "Aug", "Sep", "Oct", "Nov", "Dec"],
        toDateString z =
          w ++ " " ++ mo ++ " " ++ pad2 (civilFromDays z).2.2 ++ " " ++
            toString (civilFromDays z).1) ∧
    jsParseDate "2023-01-15" = some 19372 ∧
    toDateString 19372 = "Sun Jan 15 2023" := by
  refine ⟨fun z => ⟨weekdayAbbrev (dayOfWeek z), weekdayAbbrev_mem _,
    monthAbbrev (civilFromDays z).2.1, monthAbbrev_mem _, rfl⟩, rfl, rfl⟩

/-! ## C8 -/

/-- C8: For an existing user and a non-blank description, exercise creation
fails with `invalidInput` exactly when the duration does not parse as a
base-10 integer. -/
theorem invalid_input_iff_duration (users : List User) (store : List Exercise)
    (nextId uid : Nat) (body : ExerciseReq) (now : Int) (user : User)
    (hu : users.find? (fun u => u._id == uid) = some user)
    (hd : strBlank body.description = false) :
    (postExercise users store nextId uid body now).1 =
        .error .invalidInput ↔
      jsParseInt body.duration = none := by
  cases hdur : jsParseInt body.duration with
  | none =>
    rw [postExercise, hu]
    simp [hd, hdur]
  | some n =>
    rw [postExercise_ok store nextId body now hu hd (by rw [hdur]; rfl)]
    simp

/-- Witness for C8: duration `"abc"` is rejected as `invalidInput` for an
existing user with non-blank description. -/
theorem invalid_input_iff_duration_witness :
    (postExercise [⟨1, "u"⟩] [] 2 1 ⟨some "x", some "abc", none⟩ 0).1 =
        .error .invalidInput ↔
      jsParseInt (some "abc") = none :=
  invalid_input_iff_duration [⟨1, "u"⟩] [] 2 1 ⟨some "x", some "abc", none⟩ 0
    ⟨1, "u"⟩ rfl rfl

/-! ## C9 -/

/-- Exhaustive case split of `postExercise`: failure never touches the store,
success appends exactly one record. -/
theorem postExercise_cases (users : List User) (store : List Exercise)
    (nextId uid : Nat) (body : ExerciseReq) (now : Int) :
    postExercise users store nextId uid body now =
        (.error .unknownUser, store) ∨
    postExercise users store nextId uid body now =
        (.error .invalidInput, store) ∨
    ∃ resp ex, postExercise users store nextId uid body now =
        (.ok resp, store ++ [ex]) := by
  cases hfind : users.find? (fun u => u._id == uid) with
  | none => exact Or.inl (by rw [postExercise, hfind])
  | some user =>
    by_cases hc : (strBlank body.description ||
        (jsParseInt body.duration).isNone : Bool)
    · exact Or.inr (Or.inl (by rw [postExercise, hfind]; simp [hc]))
    · simp only [Bool.or_eq_true, not_or, Bool.not_eq_true] at hc
      exact Or.inr (Or.inr
        ⟨_, _, postExercise_ok store nextId body now hfind hc.1 hc.2⟩)

/-- Exhaustive case split of `postUser`: failure never touches the user
collection, success appends exactly one record. -/
theorem postUser_cases (users : List User) (nextId : Nat)
    (username : Option String) :
    postUser users nextId username = (.error .invalidInput, users) ∨
    ∃ resp u, postUser users nextId username = (.ok resp, users ++ [u]) := by
  rw [postUser]
  by_cases hb : strBlank username
  · exact Or.inl (by rw [if_pos hb])
  · exact Or.inr ⟨_, _, by rw [if_neg hb]⟩

/-- C9: Every failing request leaves the stored collections unchanged, and
every succeeding write appends exactly one record — each handler performs at
most one write, attempted only after all validations have passed. -/
theorem errors_leave_store_unchanged (users : List User) (store : List Exercise)
    (nextId uid : Nat) (body : ExerciseReq) (now : Int)
    (username : Option String) :
    (∀ (e : ApiError) (users' : List User),
      postUser users nextId username = (.error e, users') → users' = users) ∧
    (∀ (e : ApiError) (store' : List Exercise),
      postExercise users store nextId uid body now = (.error e, store') →
        store' = store) ∧
    (∀ (resp : UserResp) (users' : List User),
      postUser users nextId username = (.ok resp, users') →
        ∃ u : User, users' = users ++ [u]) ∧
    (∀ (resp : ExerciseResp) (store' : List Exercise),
      postExercise users store nextId uid body now = (.ok resp, store') →
        ∃ ex : Exercise, store' = store ++ [ex]) := by
  refine ⟨?_, ?_, ?_, ?_⟩
  · intro e users' h
    rcases postUser_cases users nextId username with hc | ⟨resp, u, hc⟩
    · rw [hc] at h; exact ((Prod.mk.injEq .. ▸ h).2).symm
    · rw [hc] at h; exact absurd (Prod.mk.injEq .. ▸ h).1 (by simp)
  · intro e store' h
    rcases postExercise_cases users store nextId uid body now with
      hc | hc | ⟨resp, ex, hc⟩
    · rw [hc] at h; exact ((Prod.mk.injEq .. ▸ h).2).symm
    · rw [hc] at h; exact ((Prod.mk.injEq .. ▸ h).2).symm
    · rw [hc] at h; exact absurd (Prod.mk.injEq .. ▸ h).1 (by simp)
  · intro resp users' h
    rcases postUser_cases users nextId username with hc | ⟨resp', u, hc⟩
    · rw [hc] at h; exact absurd (Prod.mk.injEq .. ▸ h).1 (by simp)
    · rw [hc] at h; exact ⟨u, ((Prod.mk.injEq .. ▸ h).2).symm⟩
  · intro resp store' h
    rcases postExercise_cases users store nextId uid body now with
      hc | hc | ⟨resp', ex, hc⟩
    · rw [hc] at h; exact absurd (Prod.mk.injEq .. ▸ h).1 (by simp)
    · rw [hc] at h; exact absurd (Prod.mk.injEq .. ▸ h).1 (by simp)
    · rw [hc] at h; exact ⟨ex, ((Prod.mk.injEq .. ▸ h).2).symm⟩

/-- Witness for C9: a failing user creation and a failing exercise creation
leave the collections empty; a succeeding one of each appends one record. -/
theorem errors_leave_store_unchanged_witness :
    (([] : List User) = ([] : List User)) ∧
    (([] : List Exercise) = ([] : List Exercise)) ∧
    (∃ u : User, [(⟨5, "bob"⟩ : User)] = [] ++ [u]) ∧
    (∃ ex : Exercise,
      [(⟨2, 1, "run", 5, 42⟩ : Exercise)] = [] ++ [ex]) := by
  refine ⟨?_, ?_, ?_, ?_⟩
  · exact (errors_leave_store_unchanged [] [] 0 1 ⟨none, none, none⟩ 0
      none).1 .invalidInput [] rfl
  · exact (errors_leave_store_unchanged [] [] 0 1 ⟨none, none, none⟩ 0
      none).2.1 .unknownUser [] rfl
  · exact (errors_leave_store_unchanged [] [] 5 1 ⟨none, none, none⟩ 0
      (some "bob")).2.2.1 ⟨"bob", 5⟩ [⟨5, "bob"⟩] rfl
  · exact (errors_leave_store_unchanged [⟨1, "u"⟩] [] 2 1
      ⟨some "run", some "5", none⟩ 42 none).2.2.2
      ⟨"1", "u", "run", 5, toDateString 42⟩ [⟨2, 1, "run", 5, 42⟩] rfl

/-! ## C10 -/

/-- Relabelling record ids commutes with ordered insertion, since the sort
key is the date only. -/
theorem orderedInsert_map_of_date (g : Exercise → Exercise)
    (hg : ∀ e, (g e).date = e.date) (a : Exercise) :
    ∀ l : List Exercise,
      List.orderedInsert dateLE (g a) (l.map g) =
        (List.orderedInsert dateLE a l).map g
  | [] => rfl
  | b :: l => by
    simp only [List.map_cons, List.orderedInsert]
    by_cases hab : dateLE a b
    · have hab' : dateLE (g a) (g b) := by
        show (g a).date ≤ (g b).date
        rw [hg, hg]; exact hab
      rw [if_pos hab, if_pos hab']
      rfl
    · have hab' : ¬ dateLE (g a) (g b) := by
        show ¬ (g a).date ≤ (g b).date
        rw [hg, hg]; exact hab
      rw [if_neg hab, if_neg hab', List.map_cons,
        orderedInsert_map_of_date g hg a l]

/-- Relabelling record ids commutes with the date sort. -/
theorem insertionSort_map_of_date (g : Exercise → Exercise)
    (hg : ∀ e, (g e).date = e.date) :
    ∀ l : List Exercise,
      List.insertionSort dateLE (l.map g) =
        (List.insertionSort dateLE l).map g
  | [] => rfl
  | a :: l => by
    simp only [List.map_cons, List.insertionSort]
    rw [insertionSort_map_of_date g hg l, orderedInsert_map_of_date g hg a]

/-- Relabelling record ids commutes with query matching and sorting. -/
theorem matchedLogs_map (ids : Exercise → Nat) (store : List Exercise)
    (q : Query) :
    matchedLogs (store.map fun e => { e with _id := ids e }) q =
      (matchedLogs store q).map (fun e => { e with _id := ids e }) := by
  unfold matchedLogs
  rw [List.filter_map]
  rw [show List.filter (matchesQuery q ∘ fun e => { e with _id := ids e }) store
      = List.filter (matchesQuery q) store from List.filter_congr fun e _ => rfl]
  exact insertionSort_map_of_date (fun e => { e with _id := ids e })
    (fun _ => rfl) _

/-- Relabelling record ids commutes with the limit. -/
theorem applyLimit_map (ids : Exercise → Nat) (lim : Option String)
    (l : List Exercise) :
    applyLimit lim (l.map fun e => { e with _id := ids e }) =
      (applyLimit lim l).map fun e => { e with _id := ids e } := by
  cases h : jsParseInt lim with
  | none => simp [applyLimit, h]
  | some n =>
    by_cases hn : 0 < n
    · simp [applyLimit, h, hn, List.map_take]
    · simp [applyLimit, h, hn]

/-- The log entry projection ignores the record id. -/
theorem map_renderEntry_map (ids : Exercise → Nat) (l : List Exercise) :
    ((l.map fun e => { e with _id := ids e }).map renderEntry) =
      l.map renderEntry := by
  rw [List.map_map]
  rfl

/-- C10: No response exposes an exercise record's own id: the logs response
is invariant under relabelling all exercise record ids; every log entry is
exactly the `{description, duration, date}` projection of a stored record;
the exercise-creation response does not depend on the created record's id
and its `_id` field is the user's id. -/
theorem no_record_id_exposure (users : List User) (store : List Exercise)
    (uid nextId nextId' : Nat) (f t lim : Option String) (body : ExerciseReq)
    (now : Int) (ids : Exercise → Nat) :
    (getLogs users (store.map fun e => { e with _id := ids e }) uid f t lim =
      getLogs users store uid f t lim) ∧
    (∀ resp : LogsResp, getLogs users store uid f t lim = .ok resp →
      ∀ le ∈ resp.log, ∃ e ∈ store,
        matchesQuery (buildQuery uid f t) e = true ∧ le = renderEntry e) ∧
    ((postExercise users store nextId uid body now).1 =
      (postExercise users store nextId' uid body now).1) ∧
    (∀ (resp : ExerciseResp) (store' : List Exercise),
      postExercise users store nextId uid body now = (.ok resp, store') →
      ∃ user, users.find? (fun u => u._id == uid) = some user ∧
        resp._id = toString user._id) := by
  refine ⟨?_, ?_, ?_, ?_⟩
  · cases hu : users.find? (fun u => u._id == uid) with
    | none => simp [getLogs, hu]
    | some user =>
      rw [getLogs_ok (store.map fun e => { e with _id := ids e }) f t lim hu,
          getLogs_ok store f t lim hu, matchedLogs_map, applyLimit_map,
          map_renderEntry_map]
  · intro resp h le hle
    cases hu : users.find? (fun u => u._id == uid) with
    | none => rw [getLogs, hu] at h; simp at h
    | some user =>
      have hid := find?_user_id hu
      rw [getLogs_ok store f t lim hu] at h
      obtain rfl : resp = _ := (Except.ok.inj h).symm
      subst hid
      obtain ⟨e, he, rfl⟩ := List.mem_map.mp hle
      have he1 : e ∈ matchedLogs store (buildQuery user._id f t) := by
        cases h2 : jsParseInt lim with
        | none => simpa [applyLimit, h2] using he
        | some n =>
          by_cases hn : 0 < n
          · exact List.take_subset n.toNat
              (matchedLogs store (buildQuery user._id f t))
              (by simpa [applyLimit, h2, hn] using he)
          · simpa [applyLimit, h2, hn] using he
      unfold matchedLogs at he1
      rw [List.mem_insertionSort dateLE] at he1
      have he2 := List.mem_filter.mp he1
      exact ⟨e, he2.1, he2.2, rfl⟩
  · cases hu : users.find? (fun u => u._id == uid) with
    | none => simp [postExercise, hu]
    | some user =>
      by_cases hc : (strBlank body.description ||
          (jsParseInt body.duration).isNone : Bool)
      · rw [postExercise, postExercise, hu]
        simp [hc]
      · simp only [Bool.or_eq_true, not_or, Bool.not_eq_true] at hc
        rw [postExercise_ok store nextId body now hu hc.1 hc.2,
            postExercise_ok store nextId' body now hu hc.1 hc.2]
  · intro resp store' h
    cases hu : users.find? (fun u => u._id == uid) with
    | none => rw [postExercise, hu] at h; simp at h
    | some user =>
      refine ⟨user, rfl, ?_⟩
      by_cases hd : strBlank body.description
      · rw [postExercise, hu] at h; simp [hd] at h
      · cases hdur : jsParseInt body.duration with
        | none => rw [postExercise, hu] at h; simp [hd, hdur] at h
        | some n =>
          rw [postExercise_ok store nextId body now hu (by simpa using hd)
            (by rw [hdur]; rfl)] at h
          obtain ⟨h1, h2⟩ := Prod.mk.injEq .. ▸ h
          obtain rfl : resp = _ := (Except.ok.inj (by exact h1)).symm
          rfl

/-- Witness for C10: relabelling the single stored record's id to 99 leaves
the logs response unchanged; the one log entry is the projection of the
stored record; the creation response is the same for record ids 2 and 3 and
returns the user's id `"1"`. -/
theorem no_record_id_exposure_witness :
    (getLogs [⟨1, "u"⟩]
        (([(⟨10, 1, "a", 5, 100⟩ : Exercise)]).map
          fun e => { e with _id := (fun _ => (99 : Nat)) e })
        1 none none none =
      getLogs [⟨1, "u"⟩] [⟨10, 1, "a", 5, 100⟩] 1 none none none) ∧
    (∀ le ∈ ({ username := "u", count := 1, _id := "1",
               log := [renderEntry ⟨10, 1, "a", 5, 100⟩] } : LogsResp).log,
      ∃ e ∈ [(⟨10, 1, "a", 5, 100⟩ : Exercise)],
        matchesQuery (buildQuery 1 none none) e = true ∧ le = renderEntry e) ∧
    ((postExercise [⟨1, "u"⟩] [⟨10, 1, "a", 5, 100⟩] 2 1
        ⟨some "run", some "5", none⟩ 42).1 =
      (postExercise [⟨1, "u"⟩] [⟨10, 1, "a", 5, 100⟩] 3 1
        ⟨some "run", some "5", none⟩ 42).1) ∧
    (∃ user, [(⟨1, "u"⟩ : User)].find? (fun u => u._id == 1) = some user ∧
      ("1" : String) = toString user._id) := by
  have h := no_record_id_exposure [⟨1, "u"⟩] [⟨10, 1, "a", 5, 100⟩] 1 2 3
    none none none ⟨some "run", some "5", none⟩ 42 (fun _ => 99)
  exact ⟨h.1, h.2.1 _ rfl, h.2.2.1,
    h.2.2.2 ⟨"1", "u", "run", 5, toDateString 42⟩
      [⟨10, 1, "a", 5, 100⟩, ⟨2, 1, "run", 5, 42⟩] rfl⟩

end ExerciseTracker
